import Mathlib

/-!
Shallow embedding of the two source modules of this repository:

* the iOS URL-scheme editor (`getScheme`, `setScheme`, `appendScheme`,
  `removeScheme`, `hasScheme`, `getSchemesFromPlist`) operating on an
  info-plist document, and
* the git helper utilities of the EAS build command
  (`ensureGitRepoExists`, `ensureGitStatusIsCleanAsync`,
  `reviewAndCommitChangesAsync`).

JavaScript exceptions are modelled with `Except`; the asynchronous git
helpers are modelled as pure functions of an environment (tool presence,
subprocess results, operator responses) that also return the ordered list
of git subcommands they spawn.
-/

namespace ExpoCli

/-- One record of the `CFBundleURLTypes` list: a group of URL schemes. -/
structure URLType where
  CFBundleURLSchemes : List String
deriving DecidableEq, Repr

/-- Value stored under the `CFBundleURLTypes` key of an info-plist.
`undef` is an absent key (JavaScript `undefined`); `nonArray` is a present
value that is not an array, tagged with its JavaScript truthiness;
`types` is an array of scheme groups. -/
inductive CFTypesVal where
  | undef
  | nonArray (truthy : Bool)
  | types (l : List URLType)
deriving DecidableEq, Repr

/-- An info-plist document: its `CFBundleURLTypes` entry plus the remaining
keys, which the scheme operations never touch. -/
structure InfoPlist where
  CFBundleURLTypes : CFTypesVal
  otherKeys : List (String × String)
deriving DecidableEq, Repr

/-- One element of a `scheme` array in the Expo config: a string, or a value
of another type (which `getScheme` filters out). -/
inductive SchemeVal where
  | str (s : String)
  | nonString
deriving DecidableEq, Repr

/-- The `scheme` field of the Expo config: absent (or of a type that is
neither array nor string), a single string, or an array of values. -/
inductive SchemeField where
  | undef
  | strVal (s : String)
  | arrVal (l : List SchemeVal)
deriving DecidableEq, Repr

/-- The `ios` section of the Expo config, as read by `setScheme`. -/
structure IosConfig where
  scheme : SchemeField
  bundleIdentifier : Option String
deriving DecidableEq, Repr

/-- The slice of the Expo config consumed by `setScheme`. -/
structure SchemeConfig where
  scheme : SchemeField
  ios : Option IosConfig
deriving DecidableEq, Repr

/-- `getScheme`: an array keeps only its string elements, a string becomes a
singleton list, anything else yields the empty list. -/
def getScheme : SchemeField → List String
  | .arrVal l => l.filterMap (fun v => match v with | .str s => some s | .nonString => none)
  | .strVal s => [s]
  | .undef => []

/-- The scheme list `setScheme` assembles before writing: the config schemes,
then the ios schemes, then the bundle identifier when it is truthy. -/
def collectSchemes (config : SchemeConfig) : List String :=
  let base := getScheme config.scheme ++
    getScheme (match config.ios with | some i => i.scheme | none => .undef)
  match config.ios with
  | some i =>
    match i.bundleIdentifier with
    | some b => if b = "" then base else base ++ [b]
    | none => base
  | none => base

/-- `setScheme`: when the collected scheme list is empty the document is
returned unchanged, otherwise `CFBundleURLTypes` is replaced by a single
group holding the collected list. -/
def setScheme (config : SchemeConfig) (infoPlist : InfoPlist) : InfoPlist :=
  let scheme := collectSchemes config
  if scheme.length = 0 then infoPlist
  else { infoPlist with CFBundleURLTypes := .types [⟨scheme⟩] }

/-- `appendScheme`: a falsy scheme (null or empty) leaves the document
unchanged; a falsy `CFBundleURLTypes` delegates to `setScheme`; an array
gets a new singleton group appended; spreading a truthy non-array raises a
JavaScript `TypeError`. -/
def appendScheme (scheme : Option String) (infoPlist : InfoPlist) :
    Except String InfoPlist :=
  match scheme with
  | none => .ok infoPlist
  | some s =>
    if s = "" then .ok infoPlist
    else
      match infoPlist.CFBundleURLTypes with
      | .types existing =>
        .ok { infoPlist with CFBundleURLTypes := .types (existing ++ [⟨[s]⟩]) }
      | .nonArray true => .error ("TypeError: CFBundleURLTypes is not iterable")
      | .nonArray false => .ok (setScheme ⟨.strVal s, none⟩ infoPlist)
      | .undef => .ok (setScheme ⟨.strVal s, none⟩ infoPlist)

/-- Remove the first occurrence of `s` from a list, as
`splice(indexOf(s), 1)` does. -/
def removeFirst (s : String) : List String → List String
  | [] => []
  | x :: xs => if x = s then xs else x :: removeFirst s xs

/-- The per-group body of `removeScheme`: when the scheme occurs, its first
occurrence is spliced out and a group left empty becomes `undefined`
(dropped by the subsequent `filter(Boolean)`). -/
def removeSchemeFromGroup (s : String) (g : URLType) : Option URLType :=
  if g.CFBundleURLSchemes.contains s then
    if (removeFirst s g.CFBundleURLSchemes).isEmpty then none
    else some ⟨removeFirst s g.CFBundleURLSchemes⟩
  else some g

/-- `removeScheme`: a falsy scheme or a falsy `CFBundleURLTypes` leaves the
document unchanged; an array is mapped group by group and emptied groups are
filtered out; calling `.map` on a truthy non-array raises a JavaScript
`TypeError`. -/
def removeScheme (scheme : Option String) (infoPlist : InfoPlist) :
    Except String InfoPlist :=
  match scheme with
  | none => .ok infoPlist
  | some s =>
    if s = "" then .ok infoPlist
    else
      match infoPlist.CFBundleURLTypes with
      | .types l =>
        .ok { infoPlist with
              CFBundleURLTypes := .types (l.filterMap (removeSchemeFromGroup s)) }
      | .nonArray true => .error ("TypeError: CFBundleURLTypes.map is not a function")
      | .nonArray false => .ok infoPlist
      | .undef => .ok infoPlist

/-- `hasScheme`: false unless `CFBundleURLTypes` is an array some of whose
groups contains the scheme. -/
def hasScheme (scheme : String) (infoPlist : InfoPlist) : Bool :=
  match infoPlist.CFBundleURLTypes with
  | .types l => l.any (fun g => g.CFBundleURLSchemes.contains scheme)
  | _ => false

/-- `getSchemesFromPlist`: concatenate the scheme lists of all groups, or
return the empty list when `CFBundleURLTypes` is not an array. -/
def getSchemesFromPlist (infoPlist : InfoPlist) : List String :=
  match infoPlist.CFBundleURLTypes with
  | .types l => l.foldl (fun schemes g => schemes ++ g.CFBundleURLSchemes) []
  | _ => []

/-- The scheme groups of a document: the `CFBundleURLTypes` array, or none
when the key is absent or not an array. -/
def plistGroups (p : InfoPlist) : List URLType :=
  match p.CFBundleURLTypes with
  | .types l => l
  | _ => []

/-- The invariant of the spec data model: every scheme string stored in the
scheme groups of the document is non-empty. -/
def schemesNonEmpty (p : InfoPlist) : Bool :=
  (plistGroups p).all (fun g => g.CFBundleURLSchemes.all (fun s => !(s == "")))

/-- Errors thrown by the git helpers: a plain `Error`, the
`DirtyGitTreeError` subclass, and `CommandError`. -/
inductive CliError where
  | plain (msg : String)
  | dirtyGitTree (msg : String)
  | commandError (msg : String)
deriving DecidableEq, Repr

/-- The argument list of one spawned git subprocess. -/
abbrev GitCmd := List String

/-- Modelled from the spec: the interactive text-prompt wrapper (the
`prompts` module of this repository, which is not under src/). Per the spec,
operator-input failures such as an empty commit message are surfaced as
thrown errors with human-readable messages, so a response rejected by the
validator yields an error. -/
def textPromptResult (response : String) (validate : String → Bool) :
    Except CliError String :=
  if validate response then .ok response
  else .error (.plain ("Input validation failed: the entered value is not accepted."))

/-- Environment of `ensureGitRepoExists`: whether the git executable is on
the PATH, whether `git rev-parse --git-dir` succeeds, the answer to the
init confirmation prompt, and the response to the commit-message prompt. -/
structure GitEnv where
  gitFound : Bool
  repoExists : Bool
  confirmInit : Bool
  commitMessageResponse : String
deriving DecidableEq, Repr

/-- `ensureGitRepoExists`: checks for the git tool, queries repository
existence with `rev-parse`, and on a missing repository either aborts when
the user declines or runs `init`, prompts for a commit message and runs
`add -A` plus `commit`. Returns the outcome and the ordered list of spawned
git subcommands. -/
def ensureGitRepoExists (env : GitEnv) : Except CliError Unit × List GitCmd :=
  if !env.gitFound then
    (.error (.plain ("git command has not been found, install it before proceeding")), [])
  else
    let trace := [["rev-parse", "--git-dir"]]
    if env.repoExists then (.ok (), trace)
    else if !env.confirmInit then
      (.error (.plain ("A git repository is required for building your project. Initialize it and run this command again.")),
       trace)
    else
      let trace := trace ++ [["init"]]
      match textPromptResult env.commitMessageResponse (fun s => !(s == "")) with
      | .error e => (.error e, trace)
      | .ok message => (.ok (), trace ++ [["add", "-A"], ["commit", "-m", message]])

/-- `ensureGitStatusIsCleanAsync`: throws `DirtyGitTreeError` when the
output of `git status -s -uno` is non-empty, otherwise returns normally. -/
def ensureGitStatusIsCleanAsync (statusOutput : String) : Except CliError Unit :=
  if statusOutput.length > 0 then
    .error (.dirtyGitTree ("Please commit all changes before building your project. Aborting..."))
  else .ok ()

/-- Environment of `reviewAndCommitChangesAsync`: the non-interactive flag,
the answer to the commit confirmation prompt, and the response to the
commit-message prompt. -/
structure ReviewEnv where
  nonInteractive : Bool
  confirm : Bool
  messageResponse : String
deriving DecidableEq, Repr

/-- `reviewAndCommitChangesAsync`: rejects non-interactive mode, shows the
diff, asks for confirmation, prompts for a commit message (initialized with
`commitMessage`) and runs `add -u` plus `commit`. Returns the outcome and
the ordered list of spawned git subcommands. -/
def reviewAndCommitChangesAsync (_commitMessage : String) (env : ReviewEnv) :
    Except CliError Unit × List GitCmd :=
  if env.nonInteractive then
    (.error (.commandError ("Cannot commit changes when --non-interactive is specified. Run the command in interactive mode to review and commit changes.")),
     [])
  else
    let trace := [["--no-pager", "diff"]]
    if !env.confirm then
      (.error (.plain ("Aborting commit. Please review and commit the changes manually.")),
       trace)
    else
      match textPromptResult env.messageResponse (fun s => !(s == "")) with
      | .error e => (.error e, trace)
      | .ok message => (.ok (), trace ++ [["add", "-u"], ["commit", "-m", message]])

/-- A spawned git subcommand mutates the repository when it is `init`,
`add` or `commit`. -/
def isMutationCmd (c : GitCmd) : Bool :=
  c.head? == some ("init") || c.head? == some ("add") || c.head? == some ("commit")

end ExpoCli

namespace ExpoCli

/-- C1: `hasScheme scheme infoPlist` is true iff `scheme` is an element of
the `CFBundleURLSchemes` list of some record in the `CFBundleURLTypes`
array; in particular it is false when `CFBundleURLTypes` is absent or not
an array. -/
theorem hasScheme_iff (scheme : String) (p : InfoPlist) :
    hasScheme scheme p = true ↔
      ∃ l, p.CFBundleURLTypes = CFTypesVal.types l ∧
        ∃ g ∈ l, scheme ∈ g.CFBundleURLSchemes := by
  unfold hasScheme
  cases h : p.CFBundleURLTypes with
  | types l =>
    simp only [List.any_eq_true, CFTypesVal.types.injEq]
    constructor
    · rintro ⟨g, hg, hc⟩
      exact ⟨l, rfl, g, hg, by simpa using hc⟩
    · rintro ⟨l', hl', g, hg, hc⟩
      cases hl'
      exact ⟨g, hg, by simpa using hc⟩
  | undef => simp
  | nonArray t => simp

/-- C4: setting a scheme `s` via `setScheme` and reading the document back
with `getSchemesFromPlist` yields exactly `[s]`. -/
theorem setScheme_getSchemes_roundtrip (s : String) (p : InfoPlist) :
    getSchemesFromPlist (setScheme ⟨SchemeField.strVal s, none⟩ p) = [s] := rfl

/-- Helper: `filterMap` by a function that fixes every element of a list
returns the list itself. -/
theorem filterMap_id_on {α : Type} (f : α → Option α) :
    ∀ l : List α, (∀ x ∈ l, f x = some x) → l.filterMap f = l := by
  intro l h
  induction l with
  | nil => rfl
  | cons x xs ih =>
    rw [List.filterMap_cons, h x (List.mem_cons_self x xs),
      ih (fun y hy => h y (List.mem_cons_of_mem x hy))]

/-- Helper: a group not containing the scheme is returned unchanged by the
body of `removeScheme`. -/
theorem removeSchemeFromGroup_of_not_mem (s : String) (g : URLType)
    (h : s ∉ g.CFBundleURLSchemes) : removeSchemeFromGroup s g = some g := by
  unfold removeSchemeFromGroup
  rw [if_neg]
  simpa using h

/-- Helper: `removeFirst` removes exactly one occurrence, so a scheme that
occurs at least twice still occurs afterwards. -/
theorem mem_removeFirst_of_two_le (s : String) :
    ∀ l : List String, 2 ≤ l.count s → s ∈ removeFirst s l := by
  intro l
  induction l with
  | nil => simp [removeFirst]
  | cons x xs ih =>
    intro h
    unfold removeFirst
    by_cases hx : x = s
    · rw [if_pos hx]
      subst hx
      rw [List.count_cons_self] at h
      exact List.count_pos_iff.mp (by omega)
    · rw [if_neg hx]
      rw [List.count_cons_of_ne (fun hs => hx hs.symm)] at h
      exact List.mem_cons_of_mem x (ih h)

/-- Helper: `removeFirst` only removes elements, never adds them. -/
theorem mem_of_mem_removeFirst (s x : String) :
    ∀ l : List String, x ∈ removeFirst s l → x ∈ l := by
  intro l
  induction l with
  | nil => simp [removeFirst]
  | cons y ys ih =>
    unfold removeFirst
    by_cases hy : y = s
    · rw [if_pos hy]
      exact fun h => List.mem_cons_of_mem y h
    · rw [if_neg hy]
      intro h
      rcases List.mem_cons.mp h with h | h
      · exact h ▸ List.mem_cons_self y ys
      · exact List.mem_cons_of_mem y (ih h)

/-- C2: for a non-null, non-empty scheme, every scheme group present before
`appendScheme` is still present, unchanged and in the same order (the old
group list is a prefix of the new one). -/
theorem appendScheme_keeps_existing_groups (s : String) (p out : InfoPlist)
    (hs : s ≠ "") (h : appendScheme (some s) p = Except.ok out) :
    plistGroups p <+: plistGroups out := by
  cases hty : p.CFBundleURLTypes with
  | types l =>
    simp only [appendScheme, if_neg hs, hty] at h
    cases h
    simp [plistGroups, hty]
  | undef =>
    simp only [appendScheme, if_neg hs, hty] at h
    cases h
    exact (by simp [plistGroups, hty] : plistGroups p = []) ▸ List.nil_prefix
  | nonArray t =>
    cases t with
    | true => simp [appendScheme, if_neg hs, hty] at h
    | false =>
      simp only [appendScheme, if_neg hs, hty] at h
      cases h
      exact (by simp [plistGroups, hty] : plistGroups p = []) ▸ List.nil_prefix

/-- C2 witness: appending a concrete scheme to a concrete document keeps
the old group list as a prefix. -/
theorem appendScheme_keeps_existing_groups_witness :
    plistGroups (InfoPlist.mk (.types [⟨["a"]⟩]) []) <+:
      plistGroups (InfoPlist.mk (.types [⟨["a"]⟩, ⟨["b"]⟩]) []) :=
  appendScheme_keeps_existing_groups ("b") (InfoPlist.mk (.types [⟨["a"]⟩]) [])
    (InfoPlist.mk (.types [⟨["a"]⟩, ⟨["b"]⟩]) []) (by decide) rfl

/-- C3: when a scheme occurs in exactly one group and splicing it out leaves
that group empty, `removeScheme` drops the whole group from
`CFBundleURLTypes`. -/
theorem removeScheme_drops_emptied_group (s : String) (p : InfoPlist)
    (l1 l2 : List URLType) (g : URLType)
    (hs : s ≠ "")
    (hty : p.CFBundleURLTypes = CFTypesVal.types (l1 ++ g :: l2))
    (hmem : s ∈ g.CFBundleURLSchemes)
    (hempty : removeFirst s g.CFBundleURLSchemes = [])
    (h1 : ∀ g' ∈ l1, s ∉ g'.CFBundleURLSchemes)
    (h2 : ∀ g' ∈ l2, s ∉ g'.CFBundleURLSchemes) :
    removeScheme (some s) p =
      Except.ok { p with CFBundleURLTypes := CFTypesVal.types (l1 ++ l2) } := by
  simp only [removeScheme, if_neg hs, hty]
  have hg : removeSchemeFromGroup s g = none := by
    unfold removeSchemeFromGroup
    rw [if_pos (by simpa using hmem), hempty]
    rfl
  rw [List.filterMap_append, List.filterMap_cons, hg,
    filterMap_id_on _ l1 (fun x hx => removeSchemeFromGroup_of_not_mem s x (h1 x hx)),
    filterMap_id_on _ l2 (fun x hx => removeSchemeFromGroup_of_not_mem s x (h2 x hx))]

/-- C3 witness: removing the only scheme of the second group of a concrete
document deletes that group. -/
theorem removeScheme_drops_emptied_group_witness :
    removeScheme (some ("x")) (InfoPlist.mk (.types [⟨["a"]⟩, ⟨["x"]⟩]) []) =
      Except.ok (InfoPlist.mk (.types [⟨["a"]⟩]) []) :=
  removeScheme_drops_emptied_group ("x") (InfoPlist.mk (.types [⟨["a"]⟩, ⟨["x"]⟩]) [])
    [⟨["a"]⟩] [] ⟨["x"]⟩ (by decide) rfl (by decide) (by decide) (by decide) (by decide)

/-- C9: `removeScheme` removes at most one occurrence of the scheme per
group: in a document with a group listing the scheme twice, the scheme is
still present after removal, so `hasScheme` remains true. -/
theorem removeScheme_removes_at_most_one (s : String) (p out : InfoPlist)
    (l1 l2 : List URLType) (g : URLType)
    (hty : p.CFBundleURLTypes = CFTypesVal.types (l1 ++ g :: l2))
    (hcount : 2 ≤ g.CFBundleURLSchemes.count s)
    (h : removeScheme (some s) p = Except.ok out) :
    hasScheme s out = true := by
  have hmem : s ∈ g.CFBundleURLSchemes :=
    List.count_pos_iff.mp (by omega)
  by_cases hs : s = ""
  · simp only [removeScheme, if_pos hs] at h
    cases h
    unfold hasScheme
    rw [hty]
    refine List.any_eq_true.mpr ⟨g, List.mem_append_right l1 (List.mem_cons_self g l2), ?_⟩
    simpa using hmem
  · simp only [removeScheme, if_neg hs, hty] at h
    cases h
    have hrm : s ∈ removeFirst s g.CFBundleURLSchemes :=
      mem_removeFirst_of_two_le s _ hcount
    have hg : removeSchemeFromGroup s g = some ⟨removeFirst s g.CFBundleURLSchemes⟩ := by
      unfold removeSchemeFromGroup
      rw [if_pos (by simpa using hmem), if_neg]
      simp only [List.isEmpty_iff]
      exact fun he => by simp [he] at hrm
    unfold hasScheme
    refine List.any_eq_true.mpr ⟨⟨removeFirst s g.CFBundleURLSchemes⟩, ?_, by simpa using hrm⟩
    exact List.mem_filterMap.mpr
      ⟨g, List.mem_append_right l1 (List.mem_cons_self g l2), hg⟩

/-- C9 witness: removing a scheme listed twice in one group of a concrete
document leaves the scheme present. -/
theorem removeScheme_removes_at_most_one_witness :
    hasScheme ("x") (InfoPlist.mk (.types [⟨["x"]⟩]) []) = true :=
  removeScheme_removes_at_most_one ("x") (InfoPlist.mk (.types [⟨["x", "x"]⟩]) [])
    (InfoPlist.mk (.types [⟨["x"]⟩]) []) [] [] ⟨["x", "x"]⟩ rfl (by decide) rfl

/-- Helper: the non-empty-scheme invariant spelled out as a proposition. -/
theorem schemesNonEmpty_iff (p : InfoPlist) :
    schemesNonEmpty p = true ↔
      ∀ g ∈ plistGroups p, ∀ x ∈ g.CFBundleURLSchemes, x ≠ "" := by
  simp [schemesNonEmpty, List.all_eq_true]

/-- Helper: every scheme of a group returned by the body of `removeScheme`
was a scheme of the original group. -/
theorem removeSchemeFromGroup_schemes_subset (s : String) (g g' : URLType)
    (h : removeSchemeFromGroup s g = some g') :
    ∀ x ∈ g'.CFBundleURLSchemes, x ∈ g.CFBundleURLSchemes := by
  simp only [removeSchemeFromGroup] at h
  by_cases hc : g.CFBundleURLSchemes.contains s
  · rw [if_pos hc] at h
    by_cases he : (removeFirst s g.CFBundleURLSchemes).isEmpty
    · rw [if_pos he] at h
      cases h
    · rw [if_neg he] at h
      cases h
      exact fun x hx => mem_of_mem_removeFirst s x _ hx
  · rw [if_neg hc] at h
    cases h
    exact fun x hx => hx

/-- Helper: `setScheme` keeps the invariant whenever every collected scheme
is non-empty. -/
theorem setScheme_preserves_nonempty (c : SchemeConfig) (p : InfoPlist)
    (hp : schemesNonEmpty p = true) (hc : ∀ x ∈ collectSchemes c, x ≠ "") :
    schemesNonEmpty (setScheme c p) = true := by
  by_cases h0 : (collectSchemes c).length = 0
  · simp [setScheme, h0, hp]
  · rw [schemesNonEmpty_iff]
    intro g hg x hx
    simp only [setScheme, if_neg h0, plistGroups] at hg
    simp at hg
    subst hg
    exact hc x hx

/-- Helper: `appendScheme` keeps the invariant for every input. -/
theorem appendScheme_preserves_nonempty (os : Option String) (p out : InfoPlist)
    (hp : schemesNonEmpty p = true) (h : appendScheme os p = Except.ok out) :
    schemesNonEmpty out = true := by
  cases os with
  | none =>
    simp only [appendScheme] at h
    cases h
    exact hp
  | some s =>
    by_cases hs : s = ""
    · simp only [appendScheme, if_pos hs] at h
      cases h
      exact hp
    · cases hty : p.CFBundleURLTypes with
      | types l =>
        simp only [appendScheme, if_neg hs, hty] at h
        cases h
        rw [schemesNonEmpty_iff] at hp ⊢
        intro g hg x hx
        simp only [plistGroups] at hg
        rcases List.mem_append.mp hg with hg | hg
        · exact hp g (by simpa [plistGroups, hty] using hg) x hx
        · simp at hg
          subst hg
          simp at hx
          subst hx
          exact hs
      | undef =>
        simp only [appendScheme, if_neg hs, hty] at h
        cases h
        exact setScheme_preserves_nonempty _ p hp (by simp [collectSchemes, getScheme, hs])
      | nonArray t =>
        cases t with
        | true => simp [appendScheme, if_neg hs, hty] at h
        | false =>
          simp only [appendScheme, if_neg hs, hty] at h
          cases h
          exact setScheme_preserves_nonempty _ p hp (by simp [collectSchemes, getScheme, hs])

/-- Helper: `removeScheme` keeps the invariant for every input. -/
theorem removeScheme_preserves_nonempty (os : Option String) (p out : InfoPlist)
    (hp : schemesNonEmpty p = true) (h : removeScheme os p = Except.ok out) :
    schemesNonEmpty out = true := by
  cases os with
  | none =>
    simp only [removeScheme] at h
    cases h
    exact hp
  | some s =>
    by_cases hs : s = ""
    · simp only [removeScheme, if_pos hs] at h
      cases h
      exact hp
    · cases hty : p.CFBundleURLTypes with
      | types l =>
        simp only [removeScheme, if_neg hs, hty] at h
        cases h
        rw [schemesNonEmpty_iff] at hp ⊢
        intro g hg x hx
        simp only [plistGroups] at hg
        rcases List.mem_filterMap.mp hg with ⟨g0, hg0, hsome⟩
        exact hp g0 (by simpa [plistGroups, hty] using hg0) x
          (removeSchemeFromGroup_schemes_subset s g0 g hsome x hx)
      | undef =>
        simp only [removeScheme, if_neg hs, hty] at h
        cases h
        exact hp
      | nonArray t =>
        cases t with
        | true => simp [removeScheme, if_neg hs, hty] at h
        | false =>
          simp only [removeScheme, if_neg hs, hty] at h
          cases h
          exact hp

/-- C5 counterexample: the empty document satisfies the non-empty-scheme
invariant, yet `setScheme` applied to the empty scheme string produces a
document that stores the empty string as a scheme. -/
theorem setScheme_empty_string_breaks_invariant :
    schemesNonEmpty (InfoPlist.mk CFTypesVal.undef []) = true ∧
    schemesNonEmpty
        (setScheme ⟨SchemeField.strVal (""), none⟩ (InfoPlist.mk CFTypesVal.undef [])) =
      false := by
  decide

/-- C5 (amended): starting from a document whose stored scheme strings are
all non-empty, `appendScheme` and `removeScheme` preserve that invariant for
every string input including the empty string, and `setScheme` preserves it
provided every scheme collected from the config (config schemes, ios
schemes, bundle identifier) is non-empty. -/
theorem scheme_ops_preserve_nonempty (p : InfoPlist) (hp : schemesNonEmpty p = true) :
    (∀ c : SchemeConfig, (∀ x ∈ collectSchemes c, x ≠ "") →
      schemesNonEmpty (setScheme c p) = true) ∧
    (∀ os out, appendScheme os p = Except.ok out → schemesNonEmpty out = true) ∧
    (∀ os out, removeScheme os p = Except.ok out → schemesNonEmpty out = true) :=
  ⟨fun c hc => setScheme_preserves_nonempty c p hp hc,
   fun os out h => appendScheme_preserves_nonempty os p out hp h,
   fun os out h => removeScheme_preserves_nonempty os p out hp h⟩

/-- C5 witness: the amended invariant preservation at a concrete document
and a concrete non-empty scheme. -/
theorem scheme_ops_preserve_nonempty_witness :
    schemesNonEmpty
        (setScheme ⟨SchemeField.strVal ("myapp"), none⟩ (InfoPlist.mk CFTypesVal.undef [])) =
      true :=
  (scheme_ops_preserve_nonempty (InfoPlist.mk CFTypesVal.undef []) (by decide)).1
    ⟨SchemeField.strVal ("myapp"), none⟩ (by decide)

/-- C10: when the collected scheme list is non-empty, `setScheme` replaces
`CFBundleURLTypes` by exactly one group holding all collected schemes,
discarding every previous group while leaving every other key unchanged;
when it is empty the input document is returned unchanged. -/
theorem setScheme_replaces_or_keeps (c : SchemeConfig) (p : InfoPlist) :
    (collectSchemes c ≠ [] →
      setScheme c p =
        { p with CFBundleURLTypes := CFTypesVal.types [⟨collectSchemes c⟩] }) ∧
    (collectSchemes c = [] → setScheme c p = p) := by
  constructor
  · intro h
    simp only [setScheme]
    rw [if_neg]
    simpa [List.length_eq_zero] using h
  · intro h
    simp [setScheme, h]

/-- C10 witness: a concrete `setScheme` call replaces an existing group list
and keeps the other keys. -/
theorem setScheme_replaces_or_keeps_witness :
    setScheme ⟨SchemeField.strVal ("a"), none⟩
        (InfoPlist.mk (.types [⟨["old"]⟩]) [(("k"), ("v"))]) =
      InfoPlist.mk (.types [⟨["a"]⟩]) [(("k"), ("v"))] :=
  (setScheme_replaces_or_keeps ⟨SchemeField.strVal ("a"), none⟩
    (InfoPlist.mk (.types [⟨["old"]⟩]) [(("k"), ("v"))])).1 (by decide)

/-- C6: `ensureGitStatusIsCleanAsync` throws a `DirtyGitTreeError` with a
human-readable (non-empty) message iff the status output is non-empty, and
returns normally when the working tree is clean. -/
theorem ensureGitStatusIsClean_spec (statusOutput : String) :
    ((∃ msg, ensureGitStatusIsCleanAsync statusOutput =
        Except.error (CliError.dirtyGitTree msg) ∧ msg ≠ "") ↔
      statusOutput.length > 0) ∧
    (statusOutput.length = 0 → ensureGitStatusIsCleanAsync statusOutput = Except.ok ()) := by
  constructor
  · constructor
    · rintro ⟨msg, hmsg, -⟩
      by_contra hlen
      simp [ensureGitStatusIsCleanAsync, if_neg hlen] at hmsg
    · intro hlen
      exact ⟨("Please commit all changes before building your project. Aborting..."),
        by simp only [ensureGitStatusIsCleanAsync, if_pos hlen], by decide⟩
  · intro hlen
    simp [ensureGitStatusIsCleanAsync, hlen]

/-- C6 witness: an empty status output returns normally, a non-empty one
throws a dirty-tree error. -/
theorem ensureGitStatusIsClean_spec_witness :
    ensureGitStatusIsCleanAsync ("") = Except.ok () :=
  (ensureGitStatusIsClean_spec ("")).2 (by decide)

/-- C7: when no repository exists and the user declines initialization,
`ensureGitRepoExists` throws an error with a human-readable message and
spawns only the `rev-parse` existence query, so no `init`, `add` or
`commit` runs; moreover a mutating subcommand appears in the trace only
when the user confirmed initialization. -/
theorem ensureGitRepoExists_decline (env : GitEnv)
    (hg : env.gitFound = true) (hr : env.repoExists = false) :
    (env.confirmInit = false →
      (∃ msg, (ensureGitRepoExists env).1 = Except.error (CliError.plain msg) ∧ msg ≠ "") ∧
      (ensureGitRepoExists env).2 = [["rev-parse", "--git-dir"]]) ∧
    ((ensureGitRepoExists env).2.any isMutationCmd = true → env.confirmInit = true) := by
  constructor
  · intro hc
    constructor
    · exact ⟨("A git repository is required for building your project. Initialize it and run this command again."),
        by simp [ensureGitRepoExists, hg, hr, hc], by decide⟩
    · simp [ensureGitRepoExists, hg, hr, hc]
  · intro hmut
    by_contra hc
    rw [Bool.not_eq_true] at hc
    simp [ensureGitRepoExists, hg, hr, hc, isMutationCmd] at hmut

/-- C7 witness: a concrete declined initialization throws and spawns only
the existence query. -/
theorem ensureGitRepoExists_decline_witness :
    (∃ msg, (ensureGitRepoExists (GitEnv.mk true false false ("m"))).1 =
        Except.error (CliError.plain msg) ∧ msg ≠ "") ∧
    (ensureGitRepoExists (GitEnv.mk true false false ("m"))).2 =
      [["rev-parse", "--git-dir"]] :=
  (ensureGitRepoExists_decline (GitEnv.mk true false false ("m")) rfl rfl).1 rfl

/-- C8: an empty commit message supplied by the operator makes both
interactive commit flows (`ensureGitRepoExists` after a confirmed init and
`reviewAndCommitChangesAsync` after a confirmed review) fail with a thrown
error carrying a human-readable (non-empty) message. -/
theorem empty_commit_message_throws (env : GitEnv) (renv : ReviewEnv) (cm : String)
    (h1 : env.gitFound = true) (h2 : env.repoExists = false)
    (h3 : env.confirmInit = true) (h4 : env.commitMessageResponse = "")
    (h5 : renv.nonInteractive = false) (h6 : renv.confirm = true)
    (h7 : renv.messageResponse = "") :
    (∃ msg, (ensureGitRepoExists env).1 = Except.error (CliError.plain msg) ∧ msg ≠ "") ∧
    (∃ msg, (reviewAndCommitChangesAsync cm renv).1 =
        Except.error (CliError.plain msg) ∧ msg ≠ "") := by
  constructor
  · exact ⟨("Input validation failed: the entered value is not accepted."),
      by simp [ensureGitRepoExists, h1, h2, h3, h4, textPromptResult], by decide⟩
  · exact ⟨("Input validation failed: the entered value is not accepted."),
      by simp [reviewAndCommitChangesAsync, h5, h6, h7, textPromptResult], by decide⟩

/-- C8 witness: concrete environments with empty commit-message responses
make both flows throw. -/
theorem empty_commit_message_throws_witness :
    (∃ msg, (ensureGitRepoExists (GitEnv.mk true false true (""))).1 =
        Except.error (CliError.plain msg) ∧ msg ≠ "") ∧
    (∃ msg, (reviewAndCommitChangesAsync ("Initial commit")
          (ReviewEnv.mk false true (""))).1 =
        Except.error (CliError.plain msg) ∧ msg ≠ "") :=
  empty_commit_message_throws (GitEnv.mk true false true ("")) (ReviewEnv.mk false true (""))
    ("Initial commit") rfl rfl rfl rfl rfl rfl rfl

end ExpoCli
